import Mathlib

/-
Shallow embedding of `src/server.js` (Prince King Pizza server).

The server is thin Express glue over MongoDB (collections `Order`, `Manager`),
Razorpay (payment gateway) and socket.io (broadcast channel).  We embed the
request handlers as pure functions over an explicit database state `DB`:

* the MongoDB collections become lists of documents carrying a `_id : Nat`
  assigned from a fresh-id counter (`nextId`), mirroring unique ObjectIds;
* `createdAt` timestamps (assigned by mongoose `timestamps: true`) are modelled
  as milliseconds-since-epoch naturals, taken from a clock field `now`;
* `io.emit(...)` broadcasts become an `events` log appended to the state;
* HMAC-SHA256 (`crypto.createHmac`) is an external primitive, so the
  verification handler is parameterised by an arbitrary keyed hash function
  `hmac : String → String → String`;
* a thrown exception caught by a handler's `try/catch` (which the code turns
  into a generic 500 response) is the explicit result `serverError`;
* JavaScript `Date` arithmetic (`setDate` / `setMonth` with overflow
  normalisation) is embedded over civil dates with a rata-die day count;
  the time zone is modelled as UTC, matching `new Date("YYYY-MM-DD")`.

Numbers occurring in payloads (`price`, `qty`, `total`) are modelled as
integers.  The `dishCount` object is modelled as an association list in
insertion order, and `Object.entries` over it (`jsEntries`) follows the
ECMAScript ordinary own-property-key order: keys that are canonical array
indices first, in ascending numeric order, then the remaining string keys in
insertion order.
-/

namespace PKP

/-- Line item of `orderPayload.items`: the code reads `i.name`, `i.price`,
`i.qty` (server.js lines 95-98, 183-185). -/
structure Item where
  name : String
  price : Int
  qty : Int
deriving DecidableEq

/-- The client-supplied `orderPayload` (server.js line 82).  `items = none`
models the payload field being missing or not an array, in which case
`orderPayload.items.reduce` throws a `TypeError`.  The `total` field models a
client-asserted total inside the payload, which the spread
`{...orderPayload, total}` on line 101-102 overrides. -/
structure OrderPayload where
  orderType : Option String := none
  customerName : Option String := none
  registrationNumber : Option String := none
  mobile : Option String := none
  tableNumber : Option String := none
  address : Option String := none
  items : Option (List Item) := none
  total : Option Int := none
  status : Option String := none
deriving DecidableEq

/-- Persisted `Order` document (schema at server.js lines 29-41): `status`
defaults to `"new"`, `createdAt` comes from `timestamps: true`, `_id` from
MongoDB. -/
structure Order where
  _id : Nat
  orderType : Option String := none
  customerName : Option String := none
  registrationNumber : Option String := none
  mobile : Option String := none
  tableNumber : Option String := none
  address : Option String := none
  items : List Item := []
  total : Int := 0
  status : String := "new"
  createdAt : Nat := 0
deriving DecidableEq

/-- Persisted `Manager` document (schema at server.js lines 43-48). -/
structure Manager where
  _id : Nat
  username : String
  password : String
deriving DecidableEq

/-- Broadcasts over the socket.io channel: `io.emit("newOrder", newOrder)`
(line 105) and `io.emit("orderUpdated", order)` (line 141, where `order` may
be null). -/
inductive Event where
  | newOrder (o : Order)
  | orderUpdated (o : Option Order)
deriving DecidableEq

/-- The server-visible state: both MongoDB collections, a fresh-id counter
modelling ObjectId allocation, the clock used for `createdAt`, and the log of
broadcast events. -/
structure DB where
  orders : List Order := []
  managers : List Manager := []
  nextId : Nat := 0
  now : Nat := 0
  events : List Event := []
deriving DecidableEq

/-- Result of the verify-and-create-order handler: `json` is `res.json({...})`
(a normal response, line 92 and line 107), `serverError` is the catch-all
`res.status(500).json({success:false})` (line 110). -/
inductive VerifyResponse where
  | json (success : Bool) (order : Option Order)
  | serverError
deriving DecidableEq

/-- The reduce at server.js lines 95-98:
`orderPayload.items.reduce((sum, i) => sum + i.price * i.qty, 0)`. -/
def sumItems (items : List Item) : Int :=
  items.foldl (fun sum i => sum + i.price * i.qty) 0

/-- `Order.create({...orderPayload, total})` (server.js lines 100-103): the
document is built from the payload's fields, except that the `total` key,
written after the spread, overwrites any client-supplied `total`; mongoose
fills `status` with its default `"new"` when the payload has none, and the
store assigns `_id` and `createdAt`.  Returns the created document and the
updated state. -/
def orderCreate (db : DB) (p : OrderPayload) (items : List Item) (total : Int) :
    Order × DB :=
  let o : Order :=
    { _id := db.nextId
      orderType := p.orderType
      customerName := p.customerName
      registrationNumber := p.registrationNumber
      mobile := p.mobile
      tableNumber := p.tableNumber
      address := p.address
      items := items
      total := total
      status := p.status.getD "new"
      createdAt := db.now }
  (o, { db with orders := db.orders ++ [o], nextId := db.nextId + 1 })

/-- POST `/api/payments/verify-and-create-order` (server.js lines 76-112).
Recomputes the HMAC-SHA256 of `razorpay_order_id + "|" + razorpay_payment_id`
under the gateway secret and compares it to the supplied signature; on
mismatch answers `{success:false}`; on match sums `price * qty` over
`orderPayload.items` (throwing, hence 500, when `items` is missing or not an
array), persists the order with the computed total, emits `"newOrder"`, and
answers `{success:true, order}`. -/
def verifyAndCreateOrder (hmac : String → String → String) (secret : String)
    (razorpay_order_id razorpay_payment_id razorpay_signature : String)
    (orderPayload : OrderPayload) (db : DB) : VerifyResponse × DB :=
  let body := razorpay_order_id ++ "|" ++ razorpay_payment_id
  let expected := hmac secret body
  if expected ≠ razorpay_signature then
    (.json false none, db)
  else
    match orderPayload.items with
    | none => (.serverError, db)
    | some items =>
      let total := sumItems items
      let (newOrder, db1) := orderCreate db orderPayload items total
      (.json true (some newOrder),
        { db1 with events := db1.events ++ [.newOrder newOrder] })

/-- PATCH `/api/orders/:id/status` (server.js lines 132-143).
`Order.findByIdAndUpdate(id, {status}, {new:true})` yields the updated
document, or null when no document has that id; the result (possibly null) is
emitted as `"orderUpdated"` and returned as the response body. -/
def updateStatus (db : DB) (id : Nat) (status : String) : Option Order × DB :=
  match db.orders.find? (fun o => o._id == id) with
  | none => (none, { db with events := db.events ++ [.orderUpdated none] })
  | some o =>
    let updated := { o with status := status }
    (some updated,
      { db with
          orders := db.orders.map (fun q => if q._id == id then updated else q)
          events := db.events ++ [.orderUpdated (some updated)] })

/-- A civil (proleptic Gregorian) date, as parsed from a `YYYY-MM-DD` query
parameter by `new Date(date)`.  `month` is 1-based (1 = January); the model is
restricted to CE years, which covers every date the API is used with. -/
structure CivilDate where
  year : Nat
  month : Nat
  day : Nat
deriving DecidableEq

/-- Gregorian leap-year test. -/
def isLeap (y : Nat) : Bool :=
  (y % 4 == 0 && y % 100 != 0) || y % 400 == 0

/-- Number of days of month `m` (1-based) in year `y`. -/
def daysInMonth (y m : Nat) : Nat :=
  if m = 2 then (if isLeap y then 29 else 28)
  else if m = 4 ∨ m = 6 ∨ m = 9 ∨ m = 11 then 30
  else 31

/-- A calendar date is valid when its fields are in range. -/
def CivilDate.valid (c : CivilDate) : Prop :=
  1 ≤ c.year ∧ 1 ≤ c.month ∧ c.month ≤ 12 ∧ 1 ≤ c.day ∧ c.day ≤ daysInMonth c.year c.month

instance (c : CivilDate) : Decidable c.valid := by
  unfold CivilDate.valid; infer_instance

/-- Day count of the civil date `(y, m, d)` on a linear day scale (days since
1 March of year 0, Gregorian), via the standard era/year-of-era decomposition.
For `1 ≤ m ≤ 12` the formula is linear in `d`, so an out-of-range `d` denotes
the date obtained by counting on past the end of the month — exactly the
normalisation JavaScript `Date.setDate` performs. -/
def civilToDays (y m d : Nat) : Nat :=
  let ys := if m ≤ 2 then y - 1 else y
  let era := ys / 400
  let yoe := ys % 400
  let mp := (m + 9) % 12
  let doy := (153 * mp + 2) / 5 + d - 1
  let doe := yoe * 365 + yoe / 4 - yoe / 100 + doy
  era * 146097 + doe

/-- Day number of a civil date. -/
def rataDie (c : CivilDate) : Nat :=
  civilToDays c.year c.month c.day

/-- JavaScript `date.setDate(v)`: the day-of-month is set to `v` and the date
is renormalised, i.e. the result is day `v` counted from the first day of the
current month. Returns the resulting day number. -/
def jsSetDate (c : CivilDate) (v : Nat) : Nat :=
  civilToDays c.year c.month 1 + (v - 1)

/-- JavaScript `date.setMonth(mIdx)` with a 0-based month index: the month is
set to `mIdx` (overflowing into later years), the day-of-month is kept, and
the date is renormalised.  Returns the resulting day number. -/
def jsSetMonth (c : CivilDate) (mIdx : Nat) : Nat :=
  let y := c.year + mIdx / 12
  let m := mIdx % 12 + 1
  civilToDays y m 1 + (c.day - 1)

/-- Window computation of GET `/api/dashboard/sales` (server.js lines 151-156):
`start = new Date(date)`, `end` a copy of `start`, then
`end.setDate(start.getDate() + 7)` for `"week"`,
`end.setMonth(start.getMonth() + 1)` for `"month"`,
`end.setDate(start.getDate() + 1)` otherwise.  `getMonth()` is the 0-based
index `c.month - 1`, so the `"month"` branch passes index `c.month`.
Returns `(start, end)` as day numbers. -/
def salesWindow (period : Option String) (c : CivilDate) : Nat × Nat :=
  let start := rataDie c
  if period = some "week" then (start, jsSetDate c (c.day + 7))
  else if period = some "month" then (start, jsSetMonth c c.month)
  else (start, jsSetDate c (c.day + 1))

/-- Milliseconds per day: converts day numbers to the timestamp scale on which
`createdAt` lives. -/
def msPerDay : Nat := 86400000

/-- GET `/api/dashboard/sales` (server.js lines 148-166): finds the orders
with `createdAt` in `[start, end)` whose status is not `"deleted"`, and
returns `{total, count}` where `total` is `orders.reduce((s,o) => s+o.total, 0)`
and `count` is `orders.length`. -/
def salesSummary (db : DB) (period : Option String) (date : CivilDate) :
    Int × Nat :=
  let w := salesWindow period date
  let orders := db.orders.filter (fun o =>
    decide (msPerDay * w.1 ≤ o.createdAt ∧ o.createdAt < msPerDay * w.2 ∧
      o.status ≠ "deleted"))
  (orders.foldl (fun s o => s + o.total) 0, orders.length)

/-- The orders GET `/api/dashboard/topdish` retrieves (server.js lines
172-178): all orders with `createdAt` in `[date, date+1day)`, with no filter
on status. -/
def ordersInDay (db : DB) (date : CivilDate) : List Order :=
  db.orders.filter (fun o =>
    decide (msPerDay * rataDie date ≤ o.createdAt ∧
      o.createdAt < msPerDay * jsSetDate date (date.day + 1)))

/-- One step of `dishCount[i.name] = (dishCount[i.name] || 0) + i.qty`
(server.js line 184) on the insertion-ordered association list that models
the `dishCount` object: an existing key is updated in place, a new key is
appended. -/
def bump : List (String × Int) → String → Int → List (String × Int)
  | [], name, qty => [(name, qty)]
  | (k, v) :: rest, name, qty =>
    if k = name then (k, v + qty) :: rest else (k, v) :: bump rest name qty

/-- The nested `forEach` at server.js lines 180-186 building `dishCount`. -/
def tally (orders : List Order) : List (String × Int) :=
  orders.foldl (fun dc o => o.items.foldl (fun dc i => bump dc i.name i.qty) dc) []

/-- Comparison used by `.sort((a, b) => b[1] - a[1])` (server.js line 189):
`a` is placed no later than `b` exactly when `a`'s count is at least `b`'s;
JavaScript `Array.prototype.sort` is stable, as is `List.mergeSort`. -/
def byCountDesc (a b : String × Int) : Bool :=
  decide (b.2 ≤ a.2)

/-- Numeric value of a digit string, digit by digit. -/
def digitsToNat (l : List Char) : Nat :=
  l.foldl (fun n c => n * 10 + (c.toNat - 48)) 0

/-- Canonical array-index test of ECMAScript property enumeration: a string
is an array index when it is a nonempty digit string with no leading zero
(except `"0"` itself) whose numeric value is below `2^32 - 1`. -/
def isCanonicalIndex (s : String) : Bool :=
  match s.data with
  | [] => false
  | c :: cs =>
    (c :: cs).all (fun d => d.isDigit) &&
    (cs.isEmpty || c != '0') &&
    digitsToNat (c :: cs) < 4294967295

/-- Numeric value of a key string, used to order array-index keys. -/
def keyNat (s : String) : Nat := digitsToNat s.data

/-- Ascending numeric order on array-index keys. -/
def byKeyAsc (a b : String × Int) : Bool :=
  decide (keyNat a.1 ≤ keyNat b.1)

/-- `Object.entries(dishCount)` (server.js line 188) on the insertion-ordered
record of the object's keys: per the ECMAScript ordinary own-property-key
order, keys that are canonical array indices come first in ascending numeric
order, followed by the remaining string keys in insertion order. -/
def jsEntries (l : List (String × Int)) : List (String × Int) :=
  (l.filter (fun e => isCanonicalIndex e.1)).mergeSort byKeyAsc
    ++ l.filter (fun e => !isCanonicalIndex e.1)

/-- GET `/api/dashboard/topdish` (server.js lines 169-194): tallies quantity
per dish name over the day's orders, enumerates the entries in JavaScript
property order, stably sorts them by descending count, and answers with the
first entry as `{_id, count}`, or null when there is none. -/
def topDish (db : DB) (date : CivilDate) : Option (String × Int) :=
  let dishCount := tally (ordersInDay db date)
  ((jsEntries dishCount).mergeSort byCountDesc).head?

/-- POST `/api/manager/change-credentials` (server.js lines 212-229):
`Manager.findOne({username: currentUser, password: currentPassword})` yields
the first matching document or null; on null the handler answers 401
`{success:false}`; otherwise it overwrites that document's `username` and
`password` and saves it (a by-`_id` write-back).  Returns the success flag and
the updated state. -/
def changeCredentials (db : DB)
    (currentUser currentPassword newUser newPassword : String) : Bool × DB :=
  match db.managers.find? (fun m =>
      m.username == currentUser && m.password == currentPassword) with
  | none => (false, db)
  | some manager =>
    let updated := { manager with username := newUser, password := newPassword }
    (true,
      { db with
          managers := db.managers.map (fun m =>
            if m._id == manager._id then updated else m) })

/-! Concrete data used by the witnesses below. -/

/-- A stand-in keyed hash used to instantiate the `hmac` parameter in
witnesses; the theorems hold for every such function. -/
def hmacDemo (key msg : String) : String := key ++ ":" ++ msg

/-- A concrete well-formed payload. -/
def itemsDemo : List Item := [⟨"Margherita", 249, 2⟩, ⟨"Pepperoni", 349, 1⟩]

/-- A payload carrying `itemsDemo` and a bogus client-asserted total. -/
def payloadDemo : OrderPayload := { items := some itemsDemo, total := some 1 }

/-- An empty database state. -/
def dbEmpty : DB := {}

/-- C1: when the signature matches, the persisted order's `total` is the sum
over `orderPayload.items` of `price * qty`, computed by the server; the
response and the stored document are independent of any client-supplied
`total` field inside the payload. -/
theorem verify_total_is_server_computed
    (hmac : String → String → String) (secret oid pid sig : String)
    (p : OrderPayload) (items : List Item) (db : DB)
    (hsig : hmac secret (oid ++ "|" ++ pid) = sig)
    (hitems : p.items = some items) :
    ∃ o db1,
      verifyAndCreateOrder hmac secret oid pid sig p db =
        (.json true (some o), db1) ∧
      o.total = sumItems items ∧
      db1.orders = db.orders ++ [o] ∧
      ∀ t : Option Int,
        verifyAndCreateOrder hmac secret oid pid sig { p with total := t } db =
          verifyAndCreateOrder hmac secret oid pid sig p db := by
  unfold verifyAndCreateOrder orderCreate
  simp only [hsig, hitems, ne_eq, not_true_eq_false, if_false]
  exact ⟨_, _, rfl, rfl, rfl, by intro t; trivial⟩

/-- Witness for C1 at a concrete signed request. -/
theorem verify_total_is_server_computed_witness :
    hmacDemo "sk" ("ord1" ++ "|" ++ "pay1") = "sk:ord1|pay1" ∧
    payloadDemo.items = some itemsDemo ∧
    ∃ o db1,
      verifyAndCreateOrder hmacDemo "sk" "ord1" "pay1" "sk:ord1|pay1"
          payloadDemo dbEmpty =
        (.json true (some o), db1) ∧
      o.total = sumItems itemsDemo ∧
      db1.orders = dbEmpty.orders ++ [o] ∧
      ∀ t : Option Int,
        verifyAndCreateOrder hmacDemo "sk" "ord1" "pay1" "sk:ord1|pay1"
            { payloadDemo with total := t } dbEmpty =
          verifyAndCreateOrder hmacDemo "sk" "ord1" "pay1" "sk:ord1|pay1"
            payloadDemo dbEmpty :=
  ⟨rfl, rfl,
    verify_total_is_server_computed hmacDemo "sk" "ord1" "pay1" "sk:ord1|pay1"
      payloadDemo itemsDemo dbEmpty rfl rfl⟩

/-- C2: if the recomputed HMAC of `gatewayOrderId + "|" + gatewayPaymentId`
differs from the supplied signature, the handler answers `{success:false}` as
a normal response and leaves the state — in particular the Orders collection —
untouched; if it matches exactly (on a well-formed payload), it answers
`{success:true, order}` and persists exactly that order. -/
theorem verify_signature_decides
    (hmac : String → String → String) (secret oid pid sig : String)
    (p : OrderPayload) (db : DB) :
    (hmac secret (oid ++ "|" ++ pid) ≠ sig →
      verifyAndCreateOrder hmac secret oid pid sig p db =
        (.json false none, db)) ∧
    (∀ items, p.items = some items → hmac secret (oid ++ "|" ++ pid) = sig →
      ∃ o db1,
        verifyAndCreateOrder hmac secret oid pid sig p db =
          (.json true (some o), db1) ∧
        db1.orders = db.orders ++ [o]) := by
  constructor
  · intro hne
    unfold verifyAndCreateOrder
    simp only [if_pos hne]
  · intro items hitems hsig
    unfold verifyAndCreateOrder orderCreate
    simp only [hsig, hitems, ne_eq, not_true_eq_false, if_false]
    exact ⟨_, _, rfl, rfl⟩

/-- Witness for C2: a tampered signature is rejected with no state change,
and the genuine signature is accepted. -/
theorem verify_signature_decides_witness :
    (hmacDemo "sk" ("ord1" ++ "|" ++ "pay1") ≠ "Xk:ord1|pay1" →
      verifyAndCreateOrder hmacDemo "sk" "ord1" "pay1" "Xk:ord1|pay1"
          payloadDemo dbEmpty =
        (.json false none, dbEmpty)) ∧
    (∀ items, payloadDemo.items = some items →
      hmacDemo "sk" ("ord1" ++ "|" ++ "pay1") = "Xk:ord1|pay1" →
      ∃ o db1,
        verifyAndCreateOrder hmacDemo "sk" "ord1" "pay1" "Xk:ord1|pay1"
            payloadDemo dbEmpty =
          (.json true (some o), db1) ∧
        db1.orders = dbEmpty.orders ++ [o]) :=
  verify_signature_decides hmacDemo "sk" "ord1" "pay1" "Xk:ord1|pay1"
    payloadDemo dbEmpty

/-- C3: with a matching signature but a missing or malformed `items` field,
the handler surfaces the generic 500 server error (the reduce throws into the
catch block) and the state is unchanged: no order is persisted, in particular
none with a zero total. -/
theorem verify_malformed_items_server_error
    (hmac : String → String → String) (secret oid pid sig : String)
    (p : OrderPayload) (db : DB)
    (hsig : hmac secret (oid ++ "|" ++ pid) = sig)
    (hitems : p.items = none) :
    verifyAndCreateOrder hmac secret oid pid sig p db = (.serverError, db) := by
  unfold verifyAndCreateOrder
  simp only [hsig, hitems, ne_eq, not_true_eq_false, if_false]

/-- Witness for C3 at a concrete signed request with no `items` array. -/
theorem verify_malformed_items_server_error_witness :
    hmacDemo "sk" ("ord1" ++ "|" ++ "pay1") = "sk:ord1|pay1" ∧
    (OrderPayload.items { total := some 250 }) = none ∧
    verifyAndCreateOrder hmacDemo "sk" "ord1" "pay1" "sk:ord1|pay1"
        { total := some 250 } dbEmpty =
      (.serverError, dbEmpty) :=
  ⟨rfl, rfl,
    verify_malformed_items_server_error hmacDemo "sk" "ord1" "pay1"
      "sk:ord1|pay1" { total := some 250 } dbEmpty rfl rfl⟩

/-- C4: two sequential calls with the identical valid signature and identical
payload both succeed and persist two distinct order documents (distinct ids);
there is no idempotency or deduplication guard. -/
theorem verify_no_idempotency_guard
    (hmac : String → String → String) (secret oid pid sig : String)
    (p : OrderPayload) (items : List Item) (db : DB)
    (hsig : hmac secret (oid ++ "|" ++ pid) = sig)
    (hitems : p.items = some items) :
    ∃ o1 db1 o2 db2,
      verifyAndCreateOrder hmac secret oid pid sig p db =
        (.json true (some o1), db1) ∧
      verifyAndCreateOrder hmac secret oid pid sig p db1 =
        (.json true (some o2), db2) ∧
      db2.orders = db.orders ++ [o1, o2] ∧
      o1._id ≠ o2._id := by
  unfold verifyAndCreateOrder orderCreate
  simp only [hsig, hitems, ne_eq, not_true_eq_false, if_false]
  refine ⟨_, _, _, _, rfl, rfl, by simp, by simp⟩

/-- Witness for C4 at a concrete signed request repeated twice. -/
theorem verify_no_idempotency_guard_witness :
    hmacDemo "sk" ("ord1" ++ "|" ++ "pay1") = "sk:ord1|pay1" ∧
    payloadDemo.items = some itemsDemo ∧
    ∃ o1 db1 o2 db2,
      verifyAndCreateOrder hmacDemo "sk" "ord1" "pay1" "sk:ord1|pay1"
          payloadDemo dbEmpty =
        (.json true (some o1), db1) ∧
      verifyAndCreateOrder hmacDemo "sk" "ord1" "pay1" "sk:ord1|pay1"
          payloadDemo db1 =
        (.json true (some o2), db2) ∧
      db2.orders = dbEmpty.orders ++ [o1, o2] ∧
      o1._id ≠ o2._id :=
  ⟨rfl, rfl,
    verify_no_idempotency_guard hmacDemo "sk" "ord1" "pay1" "sk:ord1|pay1"
      payloadDemo itemsDemo dbEmpty rfl rfl⟩

/-- C9: when no order has the requested id, the update yields null rather
than an error: null is broadcast on `"orderUpdated"`, null is returned, and
the orders collection is untouched (the state changes only by the logged
event). -/
theorem updateStatus_missing_order
    (db : DB) (id : Nat) (status : String)
    (h : ∀ o ∈ db.orders, o._id ≠ id) :
    updateStatus db id status =
      (none, { db with events := db.events ++ [.orderUpdated none] }) := by
  unfold updateStatus
  have hf : db.orders.find? (fun o => o._id == id) = none := by
    rw [List.find?_eq_none]
    intro o ho
    simpa using h o ho
  rw [hf]

/-- A database holding one order, used by the C9 witness. -/
def dbOneOrder : DB :=
  { orders := [{ _id := 0, items := itemsDemo, total := 847 }], nextId := 1 }

/-- Witness for C9: updating a nonexistent id on a concrete state. -/
theorem updateStatus_missing_order_witness :
    (∀ o ∈ dbOneOrder.orders, o._id ≠ 7) ∧
    updateStatus dbOneOrder 7 "preparing" =
      (none, { dbOneOrder with
                 events := dbOneOrder.events ++ [.orderUpdated none] }) :=
  ⟨by decide, updateStatus_missing_order dbOneOrder 7 "preparing" (by decide)⟩

/-- Mapping the by-id write-back over managers whose ids all differ from the
written id changes nothing. -/
theorem map_writeBack_of_not_mem (updated : Manager) (tid : Nat) :
    ∀ l : List Manager, tid ∉ l.map (fun m => m._id) →
      l.map (fun m => if m._id == tid then updated else m) = l := by
  intro l
  induction l with
  | nil => intro _; rfl
  | cons a l ih =>
    intro hni
    simp only [List.map_cons, List.mem_cons, not_or] at hni
    rw [List.map_cons, if_neg (by simpa using Ne.symm hni.1), ih hni.2]

/-- C10: credential change touches exactly the matched manager document.  On
a credential mismatch the state is returned unchanged with a failure flag; on
a match the first matching manager document gets the new username and
password while every manager before and after it, the orders collection, and
all other state components are unchanged. -/
theorem changeCredentials_frame
    (db : DB) (cu cp nu np : String)
    (hids : (db.managers.map (fun m => m._id)).Nodup) :
    ((∀ m ∈ db.managers, ¬(m.username = cu ∧ m.password = cp)) →
      changeCredentials db cu cp nu np = (false, db)) ∧
    (∀ l1 mgr l2, db.managers = l1 ++ mgr :: l2 →
      (∀ m ∈ l1, ¬(m.username = cu ∧ m.password = cp)) →
      mgr.username = cu → mgr.password = cp →
      changeCredentials db cu cp nu np =
        (true,
          { db with managers :=
              l1 ++ { mgr with username := nu, password := np } :: l2 })) := by
  constructor
  · intro hnone
    unfold changeCredentials
    have hf : db.managers.find? (fun m =>
        m.username == cu && m.password == cp) = none := by
      rw [List.find?_eq_none]
      intro m hm
      have := hnone m hm
      simp only [Bool.and_eq_true, beq_iff_eq]
      tauto
    rw [hf]
  · intro l1 mgr l2 hsplit hl1 hu hp
    unfold changeCredentials
    have hf : db.managers.find? (fun m =>
        m.username == cu && m.password == cp) = some mgr := by
      rw [hsplit, List.find?_append]
      have h1 : l1.find? (fun m => m.username == cu && m.password == cp) = none := by
        rw [List.find?_eq_none]
        intro m hm
        have := hl1 m hm
        simp only [Bool.and_eq_true, beq_iff_eq]
        tauto
      rw [h1, Option.none_or, List.find?_cons_of_pos _ (by simp [hu, hp])]
    rw [hf]
    have hmem : mgr._id ∉ l1.map (fun m => m._id) ∧
        mgr._id ∉ l2.map (fun m => m._id) := by
      rw [hsplit] at hids
      simp only [List.map_append, List.map_cons] at hids
      rcases List.nodup_append.mp hids with ⟨h1, h2, h3⟩
      exact ⟨fun hc => h3 hc (by simp), by simpa using (List.nodup_cons.mp h2).1⟩
    simp only [Prod.mk.injEq, true_and]
    rw [hsplit]
    simp only [List.map_append, List.map_cons, beq_self_eq_true, if_pos]
    rw [map_writeBack_of_not_mem _ _ l1 hmem.1, map_writeBack_of_not_mem _ _ l2 hmem.2]

/-- A database holding two managers and one order, used by the C10 witness. -/
def dbTwoManagers : DB :=
  { orders := [{ _id := 0, items := itemsDemo, total := 847 }]
    managers := [⟨10, "admin", "pw1"⟩, ⟨11, "bob", "pw2"⟩]
    nextId := 12 }

/-- Witness for C10 on a concrete two-manager state. -/
theorem changeCredentials_frame_witness :
    (dbTwoManagers.managers.map (fun m => m._id)).Nodup ∧
    (((∀ m ∈ dbTwoManagers.managers,
        ¬(m.username = "bob" ∧ m.password = "pw2")) →
      changeCredentials dbTwoManagers "bob" "pw2" "bob2" "pw3" =
        (false, dbTwoManagers)) ∧
    (∀ l1 mgr l2, dbTwoManagers.managers = l1 ++ mgr :: l2 →
      (∀ m ∈ l1, ¬(m.username = "bob" ∧ m.password = "pw2")) →
      mgr.username = "bob" → mgr.password = "pw2" →
      changeCredentials dbTwoManagers "bob" "pw2" "bob2" "pw3" =
        (true,
          { dbTwoManagers with managers :=
              l1 ++ { mgr with username := "bob2", password := "pw3" } :: l2 }))) :=
  ⟨by decide,
    changeCredentials_frame dbTwoManagers "bob" "pw2" "bob2" "pw3" (by decide)⟩

/-- The day count is linear in the day-of-month argument: day `d` of a month
is `d - 1` days past day 1 of that month. -/
theorem civilToDays_shift (y m d : Nat) (hd : 1 ≤ d) :
    civilToDays y m d = civilToDays y m 1 + (d - 1) := by
  unfold civilToDays
  by_cases hm : m ≤ 2 <;> simp only [hm, if_pos, if_neg, ite_true, ite_false] <;> omega

/-- JavaScript `setDate(getDate() + k)` advances the date by exactly `k`
days. -/
theorem jsSetDate_add (c : CivilDate) (k : Nat) (hd : 1 ≤ c.day) :
    jsSetDate c (c.day + k) = rataDie c + k := by
  unfold jsSetDate rataDie
  rw [civilToDays_shift c.year c.month c.day hd]
  omega

/-- C5: the sales window is `[date, end)` with `end` one day later for an
unset period or `"day"`, seven days later for `"week"`, and the same
day-of-month of the next calendar month for `"month"` (stated for days that
exist in the next month); in particular the `"month"` window of 2024-01-15
ends at 2024-02-15, which is 31 days later — not a fixed 30. -/
theorem salesWindow_periods (c : CivilDate) (h : c.valid) :
    salesWindow none c = (rataDie c, rataDie c + 1) ∧
    salesWindow (some "day") c = (rataDie c, rataDie c + 1) ∧
    salesWindow (some "week") c = (rataDie c, rataDie c + 7) ∧
    (∀ y m,
      (if c.month = 12 then ((c.year + 1, 1) : Nat × Nat)
       else (c.year, c.month + 1)) = (y, m) →
      c.day ≤ daysInMonth y m →
      salesWindow (some "month") c = (rataDie c, rataDie ⟨y, m, c.day⟩)) ∧
    salesWindow (some "month") ⟨2024, 1, 15⟩ =
      (rataDie ⟨2024, 1, 15⟩, rataDie ⟨2024, 2, 15⟩) ∧
    rataDie ⟨2024, 2, 15⟩ = rataDie ⟨2024, 1, 15⟩ + 31 := by
  obtain ⟨hy, hm1, hm2, hd1, hd2⟩ := h
  refine ⟨?_, ?_, ?_, ?_, by decide, by decide⟩
  · simp only [salesWindow, reduceCtorEq, if_false]
    rw [jsSetDate_add c 1 hd1]
  · simp only [salesWindow, Option.some.injEq, String.reduceEq, if_false]
    rw [jsSetDate_add c 1 hd1]
  · simp only [salesWindow, Option.some.injEq, String.reduceEq, if_true]
    rw [jsSetDate_add c 7 hd1]
  · intro y m hnext _
    simp only [salesWindow, Option.some.injEq, String.reduceEq, if_false, if_true]
    have harg : (c.year + c.month / 12, c.month % 12 + 1) = (y, m) := by
      split at hnext <;> [skip; skip] <;>
        · injection hnext with h1 h2
          refine Prod.ext ?_ ?_ <;> simp only [] <;> omega
    have hy2 : c.year + c.month / 12 = y := congrArg Prod.fst harg
    have hm3 : c.month % 12 + 1 = m := congrArg Prod.snd harg
    unfold jsSetMonth rataDie
    rw [hy2, hm3, civilToDays_shift y m c.day hd1]

/-- Witness for C5 at the date 2024-01-15 named by the spec. -/
theorem salesWindow_periods_witness :
    (CivilDate.valid ⟨2024, 1, 15⟩) ∧
    (salesWindow none ⟨2024, 1, 15⟩ =
      (rataDie ⟨2024, 1, 15⟩, rataDie ⟨2024, 1, 15⟩ + 1) ∧
    salesWindow (some "day") ⟨2024, 1, 15⟩ =
      (rataDie ⟨2024, 1, 15⟩, rataDie ⟨2024, 1, 15⟩ + 1) ∧
    salesWindow (some "week") ⟨2024, 1, 15⟩ =
      (rataDie ⟨2024, 1, 15⟩, rataDie ⟨2024, 1, 15⟩ + 7) ∧
    (∀ y m,
      (if (⟨2024, 1, 15⟩ : CivilDate).month = 12 then ((2024 + 1, 1) : Nat × Nat)
       else (2024, (⟨2024, 1, 15⟩ : CivilDate).month + 1)) = (y, m) →
      (⟨2024, 1, 15⟩ : CivilDate).day ≤ daysInMonth y m →
      salesWindow (some "month") ⟨2024, 1, 15⟩ =
        (rataDie ⟨2024, 1, 15⟩, rataDie ⟨y, m, 15⟩)) ∧
    salesWindow (some "month") ⟨2024, 1, 15⟩ =
      (rataDie ⟨2024, 1, 15⟩, rataDie ⟨2024, 2, 15⟩) ∧
    rataDie ⟨2024, 2, 15⟩ = rataDie ⟨2024, 1, 15⟩ + 31) :=
  ⟨by decide, salesWindow_periods ⟨2024, 1, 15⟩ (by decide)⟩

/-- The JavaScript `reduce((s, o) => s + o.total, acc)` computes `acc` plus
the sum of the totals. -/
theorem foldl_add_total (l : List Order) (a : Int) :
    l.foldl (fun s o => s + o.total) a = a + (l.map (fun o => o.total)).sum := by
  induction l generalizing a with
  | nil => simp
  | cons x l ih => simp [ih, add_assoc]

/-- Summing a field over a filtered list equals summing the field gated by
the filter over the whole list. -/
theorem sum_filter_map_total (p : Order → Bool) (l : List Order) :
    ((l.filter p).map (fun o => o.total)).sum =
      (l.map (fun o => if p o then o.total else 0)).sum := by
  induction l with
  | nil => rfl
  | cons x l ih => by_cases h : p x <;> simp [List.filter_cons, h, ih]

/-- C6: the sales summary returns `{total, count}` where `total` sums the
`total` field of exactly the in-window orders whose status is not
`"deleted"` and `count` counts them; an order with status `"deleted"`
contributes to neither. -/
theorem salesSummary_characterisation (db : DB) (period : Option String)
    (date : CivilDate) :
    (salesSummary db period date).1 =
      (db.orders.map (fun o =>
        if msPerDay * (salesWindow period date).1 ≤ o.createdAt ∧
            o.createdAt < msPerDay * (salesWindow period date).2 ∧
            o.status ≠ "deleted"
        then o.total else 0)).sum ∧
    (salesSummary db period date).2 =
      db.orders.countP (fun o =>
        decide (msPerDay * (salesWindow period date).1 ≤ o.createdAt ∧
          o.createdAt < msPerDay * (salesWindow period date).2 ∧
          o.status ≠ "deleted")) ∧
    (∀ o : Order, o.status = "deleted" →
      salesSummary { db with orders := o :: db.orders } period date =
        salesSummary db period date) := by
  refine ⟨?_, ?_, ?_⟩
  · simp only [salesSummary]
    rw [foldl_add_total, zero_add, sum_filter_map_total]
    simp only [decide_eq_true_eq]
  · simp only [salesSummary]
    simp only [List.countP_eq_length_filter]
  · intro o ho
    simp only [salesSummary]
    rw [List.filter_cons_of_neg (by simp [ho])]

/-- A database with one live and one deleted order on 2024-01-15, used by
the C6 witness. -/
def dbSales : DB :=
  { orders :=
      [{ _id := 0, items := itemsDemo, total := 847,
         createdAt := msPerDay * rataDie ⟨2024, 1, 15⟩ },
       { _id := 1, items := itemsDemo, total := 500, status := "deleted",
         createdAt := msPerDay * rataDie ⟨2024, 1, 15⟩ }]
    nextId := 2 }

/-- Witness for C6 on a concrete state containing a deleted order. -/
theorem salesSummary_characterisation_witness :
    ((salesSummary dbSales (some "day") ⟨2024, 1, 15⟩).1 =
      (dbSales.orders.map (fun o =>
        if msPerDay * (salesWindow (some "day") ⟨2024, 1, 15⟩).1 ≤ o.createdAt ∧
            o.createdAt <
              msPerDay * (salesWindow (some "day") ⟨2024, 1, 15⟩).2 ∧
            o.status ≠ "deleted"
        then o.total else 0)).sum ∧
    (salesSummary dbSales (some "day") ⟨2024, 1, 15⟩).2 =
      dbSales.orders.countP (fun o =>
        decide (msPerDay * (salesWindow (some "day") ⟨2024, 1, 15⟩).1 ≤
            o.createdAt ∧
          o.createdAt < msPerDay * (salesWindow (some "day") ⟨2024, 1, 15⟩).2 ∧
          o.status ≠ "deleted")) ∧
    (∀ o : Order, o.status = "deleted" →
      salesSummary { dbSales with orders := o :: dbSales.orders }
          (some "day") ⟨2024, 1, 15⟩ =
        salesSummary dbSales (some "day") ⟨2024, 1, 15⟩)) ∧
    salesSummary dbSales (some "day") ⟨2024, 1, 15⟩ = (847, 1) :=
  ⟨salesSummary_characterisation dbSales (some "day") ⟨2024, 1, 15⟩, by decide⟩

/-- Updating a key of the dish-count object either leaves the key list
unchanged (existing key) or appends the new key (first occurrence). -/
theorem bump_map_fst (l : List (String × Int)) (name : String) (qty : Int) :
    (bump l name qty).map Prod.fst =
      if name ∈ l.map Prod.fst then l.map Prod.fst
      else l.map Prod.fst ++ [name] := by
  induction l with
  | nil => simp [bump]
  | cons a l ih =>
    obtain ⟨k, v⟩ := a
    by_cases h : k = name
    · subst h
      simp [bump]
    · have hne : ¬name = k := fun hh => h hh.symm
      simp only [bump, if_neg h, List.map_cons, List.mem_cons, hne, false_or]
      by_cases hm : name ∈ l.map Prod.fst
      · simp [hm, ih]
      · simp [hm, ih]

/-- Keys of the dish-count object stay duplicate-free across an update. -/
theorem bump_keys_nodup (l : List (String × Int)) (name : String) (qty : Int)
    (h : (l.map Prod.fst).Nodup) : ((bump l name qty).map Prod.fst).Nodup := by
  rw [bump_map_fst]
  by_cases hm : name ∈ l.map Prod.fst
  · simpa [hm] using h
  · rw [if_neg hm]
    refine List.Nodup.append h (List.nodup_singleton name) ?_
    simpa [List.disjoint_singleton] using hm

/-- Folding a list of items into the dish-count object keeps its keys
duplicate-free. -/
theorem tallyItems_keys_nodup (items : List Item) :
    ∀ acc : List (String × Int), (acc.map Prod.fst).Nodup →
      ((items.foldl (fun dc i => bump dc i.name i.qty) acc).map Prod.fst).Nodup := by
  induction items with
  | nil => intro acc h; exact h
  | cons i items ih => intro acc h; exact ih _ (bump_keys_nodup _ _ _ h)

/-- Dish names are keys of a JavaScript object, so the tally holds each name
at most once. -/
theorem tally_keys_nodup (orders : List Order) :
    ((tally orders).map Prod.fst).Nodup := by
  have main : ∀ acc : List (String × Int), (acc.map Prod.fst).Nodup →
      ((orders.foldl
          (fun dc o => o.items.foldl (fun dc i => bump dc i.name i.qty) dc)
          acc).map Prod.fst).Nodup := by
    induction orders with
    | nil => intro acc h; exact h
    | cons o orders ih => intro acc h; exact ih _ (tallyItems_keys_nodup o.items acc h)
  exact main [] (by simp)

/-- The tally list is duplicate-free. -/
theorem tally_nodup (orders : List Order) : (tally orders).Nodup :=
  List.Nodup.of_map Prod.fst (tally_keys_nodup orders)

/-- The sort comparator is transitive. -/
theorem byCountDesc_trans (a b c : String × Int) :
    byCountDesc a b → byCountDesc b c → byCountDesc a c := by
  simp only [byCountDesc, decide_eq_true_eq]
  omega

/-- The sort comparator is total. -/
theorem byCountDesc_total (a b : String × Int) :
    (byCountDesc a b || byCountDesc b a) = true := by
  simp only [byCountDesc, Bool.or_eq_true, decide_eq_true_eq]
  omega

/-- Head of the stable descending sort of a duplicate-free list: it is an
entry of the list, every entry's count is bounded by its count, and every
entry strictly to its left in the original list has a strictly smaller
count. -/
theorem mergeSort_head_first_max (l : List (String × Int)) (hl : l.Nodup)
    (x : String × Int) (hx : (l.mergeSort byCountDesc).head? = some x) :
    x ∈ l ∧ (∀ e ∈ l, e.2 ≤ x.2) ∧
      ∀ l1 l2, l = l1 ++ x :: l2 → ∀ e ∈ l1, e.2 < x.2 := by
  obtain ⟨rest, hms⟩ := List.head?_eq_some_iff.mp hx
  have hperm : List.Perm (l.mergeSort byCountDesc) l := List.mergeSort_perm l byCountDesc
  have hxmem : x ∈ l := hperm.mem_iff.mp (by rw [hms]; exact List.mem_cons_self x rest)
  have hsorted := List.sorted_mergeSort byCountDesc_trans byCountDesc_total l
  rw [hms] at hsorted
  have hmax : ∀ e ∈ l, e.2 ≤ x.2 := by
    intro e he
    have hin : e ∈ x :: rest := by rw [← hms]; exact hperm.mem_iff.mpr he
    rcases List.mem_cons.mp hin with rfl | hrest
    · exact le_refl _
    · have := List.rel_of_pairwise_cons hsorted hrest
      simpa [byCountDesc] using this
  refine ⟨hxmem, hmax, ?_⟩
  intro l1 l2 hsplit e he
  by_contra hcon
  have hex : x.2 ≤ e.2 := by
    have := hmax e (by rw [hsplit]; exact List.mem_append.mpr (Or.inl he))
    omega
  have hne : e ≠ x := by
    rintro rfl
    rw [hsplit] at hl
    exact (List.nodup_cons.mp (List.nodup_middle.mp hl)).1
      (List.mem_append.mpr (Or.inl he))
  obtain ⟨a, b, hab⟩ := List.append_of_mem he
  have hfull : List.Sublist [e, x] l := by
    rw [hsplit, hab, List.append_assoc, List.cons_append]
    refine List.Sublist.trans ?_ (List.sublist_append_right a _)
    refine List.Sublist.cons₂ e ?_
    refine List.Sublist.trans ?_ (List.sublist_append_right b _)
    simp
  have hstab := List.pair_sublist_mergeSort byCountDesc_trans byCountDesc_total
      (by simp only [byCountDesc, decide_eq_true_eq]; omega) hfull
  rw [hms] at hstab
  have hnodup : (x :: rest).Nodup := by
    rw [← hms]; exact hperm.nodup_iff.mpr hl
  cases hstab with
  | cons a h =>
    have : x ∈ rest := h.subset (by simp)
    exact (List.nodup_cons.mp hnodup).1 this
  | cons₂ a h => exact hne rfl

/-- Sorting a two-element list swaps the elements exactly when the comparator
rejects the given order. -/
theorem mergeSort_pair {α : Type} (le : α → α → Bool) (a b : α) :
    [a, b].mergeSort le = if le a b then [a, b] else [b, a] := by
  rw [List.mergeSort]
  simp [List.splitInTwo, List.splitAt_eq, List.merge]

/-- Enumeration reorders the object's entries but neither adds nor drops
any. -/
theorem jsEntries_perm (l : List (String × Int)) : List.Perm (jsEntries l) l := by
  unfold jsEntries
  exact ((List.mergeSort_perm _ byKeyAsc).append (List.Perm.refl _)).trans
    (List.filter_append_perm (fun e => isCanonicalIndex e.1) l)

/-- When no key is a canonical array index, enumeration order is insertion
order. -/
theorem jsEntries_of_no_index (l : List (String × Int))
    (h : ∀ e ∈ l, isCanonicalIndex e.1 = false) : jsEntries l = l := by
  unfold jsEntries
  rw [List.filter_eq_nil_iff.mpr (by intro a ha; simp [h a ha]),
    List.mergeSort_nil, List.nil_append,
    List.filter_eq_self.mpr (by intro a ha; simp [h a ha])]

/-- The generic behaviour of topDish on a nonempty tally: the answer is an
entry of the tally with maximal cumulative quantity, and it is the first
such entry in JavaScript property-enumeration order over the dish-count
object. -/
theorem topDish_head_spec (db : DB) (date : CivilDate)
    (h : tally (ordersInDay db date) ≠ []) :
    ∃ x, topDish db date = some x ∧
      x ∈ tally (ordersInDay db date) ∧
      (∀ e ∈ tally (ordersInDay db date), e.2 ≤ x.2) ∧
      ∀ l1 l2, jsEntries (tally (ordersInDay db date)) = l1 ++ x :: l2 →
        ∀ e ∈ l1, e.2 < x.2 := by
  have hperm := jsEntries_perm (tally (ordersInDay db date))
  have hnd : (jsEntries (tally (ordersInDay db date))).Nodup :=
    hperm.nodup_iff.mpr (tally_nodup (ordersInDay db date))
  have hne : (jsEntries (tally (ordersInDay db date))).mergeSort byCountDesc ≠ [] := by
    intro hnil
    have hp := List.mergeSort_perm (jsEntries (tally (ordersInDay db date))) byCountDesc
    rw [hnil] at hp
    have h1 : jsEntries (tally (ordersInDay db date)) = [] := hp.nil_eq.symm
    rw [h1] at hperm
    exact h hperm.nil_eq.symm
  obtain ⟨x, hx⟩ : ∃ x,
      ((jsEntries (tally (ordersInDay db date))).mergeSort byCountDesc).head? =
        some x := by
    cases hc : (jsEntries (tally (ordersInDay db date))).mergeSort byCountDesc with
    | nil => exact absurd hc hne
    | cons y ys => exact ⟨y, rfl⟩
  obtain ⟨h1, h2, h3⟩ := mergeSort_head_first_max _ hnd x hx
  exact ⟨x, by simpa [topDish] using hx, hperm.mem_iff.mp h1,
    fun e he => h2 e (hperm.mem_iff.mpr he), h3⟩

/-- Concrete database for the spec's tie-break example: a Margherita order
inserted before a Pepperoni order, both with quantity 2, on 2024-01-15. -/
def dbTie : DB :=
  { orders :=
      [{ _id := 0, items := [⟨"Margherita", 249, 2⟩], total := 498,
         createdAt := msPerDay * rataDie ⟨2024, 1, 15⟩ },
       { _id := 1, items := [⟨"Pepperoni", 349, 2⟩], total := 698,
         createdAt := msPerDay * rataDie ⟨2024, 1, 15⟩ }]
    nextId := 2 }

/-- Concrete database exposing the enumeration-order tie-break: a dish named
"10" ordered before a dish named "2", both with quantity 2, on 2024-01-15;
both names are canonical array indices, so `Object.entries` lists "2"
first. -/
def dbNumericTie : DB :=
  { orders :=
      [{ _id := 0, items := [⟨"10", 249, 2⟩], total := 498,
         createdAt := msPerDay * rataDie ⟨2024, 1, 15⟩ },
       { _id := 1, items := [⟨"2", 349, 2⟩], total := 698,
         createdAt := msPerDay * rataDie ⟨2024, 1, 15⟩ }]
    nextId := 2 }

/-- Evaluation of topDish on the insertion-order tie example: no dish name is
an array index, so the tie resolves to first insertion. -/
theorem topDish_dbTie_eq :
    topDish dbTie ⟨2024, 1, 15⟩ = some ("Margherita", 2) := by
  have htal : tally (ordersInDay dbTie ⟨2024, 1, 15⟩) =
      [("Margherita", 2), ("Pepperoni", 2)] := by decide
  show ((jsEntries (tally (ordersInDay dbTie ⟨2024, 1, 15⟩))).mergeSort
      byCountDesc).head? = some ("Margherita", 2)
  rw [htal,
    jsEntries_of_no_index [("Margherita", 2), ("Pepperoni", 2)] (by decide),
    mergeSort_pair]
  decide

/-- Evaluation of topDish on the integer-like-names tie example: both names
are array indices, so enumeration puts "2" before "10" and the stable sort
keeps it first. -/
theorem topDish_dbNumericTie_eq :
    topDish dbNumericTie ⟨2024, 1, 15⟩ = some ("2", 2) := by
  have htal : tally (ordersInDay dbNumericTie ⟨2024, 1, 15⟩) =
      [("10", 2), ("2", 2)] := by decide
  have hjs : jsEntries [("10", 2), ("2", 2)] = [("2", 2), ("10", 2)] := by
    unfold jsEntries
    rw [List.filter_eq_self.mpr (by decide),
      List.filter_eq_nil_iff.mpr (by decide), mergeSort_pair]
    decide
  show ((jsEntries (tally (ordersInDay dbNumericTie ⟨2024, 1, 15⟩))).mergeSort
      byCountDesc).head? = some ("2", 2)
  rw [htal, hjs, mergeSort_pair]
  decide

/-- C7 (amended): on a day window whose orders carry at least one line item
(nonempty tally), topDish returns an entry of the tally with the highest
cumulative quantity, ties resolved to the first such entry in JavaScript
property-enumeration order — dish names that are canonical array indices
first in ascending numeric order, then the remaining names in insertion
order.  When no dish name is an array index (the usual case for dish names)
the tie therefore goes to the first name encountered in insertion order, as
on the spec's example where Margherita wins with count 2; with tied
integer-like names "10" (inserted first) and "2" the code instead answers
"2".  (As literally stated the claim fails both on a window whose orders all
have empty items arrays and on integer-like dish names; see the
counterexample theorem.) -/
theorem topDish_first_of_maximals (db : DB) (date : CivilDate)
    (h : tally (ordersInDay db date) ≠ []) :
    (∃ x, topDish db date = some x ∧
      x ∈ tally (ordersInDay db date) ∧
      (∀ e ∈ tally (ordersInDay db date), e.2 ≤ x.2) ∧
      ∀ l1 l2, jsEntries (tally (ordersInDay db date)) = l1 ++ x :: l2 →
        ∀ e ∈ l1, e.2 < x.2) ∧
    ((∀ e ∈ tally (ordersInDay db date), isCanonicalIndex e.1 = false) →
      ∃ x, topDish db date = some x ∧
        x ∈ tally (ordersInDay db date) ∧
        (∀ e ∈ tally (ordersInDay db date), e.2 ≤ x.2) ∧
        ∀ l1 l2, tally (ordersInDay db date) = l1 ++ x :: l2 →
          ∀ e ∈ l1, e.2 < x.2) ∧
    topDish dbTie ⟨2024, 1, 15⟩ = some ("Margherita", 2) ∧
    topDish dbNumericTie ⟨2024, 1, 15⟩ = some ("2", 2) := by
  refine ⟨topDish_head_spec db date h, ?_, topDish_dbTie_eq, topDish_dbNumericTie_eq⟩
  intro hni
  obtain ⟨x, hx, hmem, hmax, hfirst⟩ := topDish_head_spec db date h
  refine ⟨x, hx, hmem, hmax, ?_⟩
  intro l1 l2 hsplit e he
  exact hfirst l1 l2 (by rw [jsEntries_of_no_index _ hni]; exact hsplit) e he

/-- Witness for C7 at the spec's two-order tie example. -/
theorem topDish_first_of_maximals_witness :
    tally (ordersInDay dbTie ⟨2024, 1, 15⟩) ≠ [] ∧
    ((∃ x, topDish dbTie ⟨2024, 1, 15⟩ = some x ∧
      x ∈ tally (ordersInDay dbTie ⟨2024, 1, 15⟩) ∧
      (∀ e ∈ tally (ordersInDay dbTie ⟨2024, 1, 15⟩), e.2 ≤ x.2) ∧
      ∀ l1 l2, jsEntries (tally (ordersInDay dbTie ⟨2024, 1, 15⟩)) = l1 ++ x :: l2 →
        ∀ e ∈ l1, e.2 < x.2) ∧
    ((∀ e ∈ tally (ordersInDay dbTie ⟨2024, 1, 15⟩), isCanonicalIndex e.1 = false) →
      ∃ x, topDish dbTie ⟨2024, 1, 15⟩ = some x ∧
        x ∈ tally (ordersInDay dbTie ⟨2024, 1, 15⟩) ∧
        (∀ e ∈ tally (ordersInDay dbTie ⟨2024, 1, 15⟩), e.2 ≤ x.2) ∧
        ∀ l1 l2, tally (ordersInDay dbTie ⟨2024, 1, 15⟩) = l1 ++ x :: l2 →
          ∀ e ∈ l1, e.2 < x.2) ∧
    topDish dbTie ⟨2024, 1, 15⟩ = some ("Margherita", 2) ∧
    topDish dbNumericTie ⟨2024, 1, 15⟩ = some ("2", 2)) :=
  ⟨by decide, topDish_first_of_maximals dbTie ⟨2024, 1, 15⟩ (by decide)⟩

/-- Concrete database refuting C7 as literally stated: one order in the day
window of 2024-01-15 whose items array is empty. -/
def dbEmptyItems : DB :=
  { orders := [{ _id := 0, items := [],
                 createdAt := msPerDay * rataDie ⟨2024, 1, 15⟩ }]
    nextId := 1 }

/-- Counterexamples to C7 as stated.  First, the day window of 2024-01-15
over `dbEmptyItems` contains one order, yet topDish answers null instead of
a maximal `{_id, count}` entry, because the lone order has no items.
Second, over `dbNumericTie` the tally records the tied dish "10" before "2"
(insertion order), yet topDish answers "2" — not the insertion-first "10"
the claim requires — because JavaScript enumerates integer-like keys in
ascending numeric order before the stable sort runs. -/
theorem topDish_claim_counterexample :
    ((ordersInDay dbEmptyItems ⟨2024, 1, 15⟩).length = 1 ∧
      topDish dbEmptyItems ⟨2024, 1, 15⟩ = none) ∧
    (tally (ordersInDay dbNumericTie ⟨2024, 1, 15⟩) = [("10", 2), ("2", 2)] ∧
      topDish dbNumericTie ⟨2024, 1, 15⟩ = some ("2", 2)) := by
  refine ⟨⟨by decide, ?_⟩, by decide, topDish_dbNumericTie_eq⟩
  have htal : tally (ordersInDay dbEmptyItems ⟨2024, 1, 15⟩) = [] := by decide
  show ((jsEntries (tally (ordersInDay dbEmptyItems ⟨2024, 1, 15⟩))).mergeSort
      byCountDesc).head? = none
  rw [htal]
  simp [jsEntries, List.mergeSort_nil]

/-- C8: a day window containing zero orders makes topDish answer null. -/
theorem topDish_empty_window (db : DB) (date : CivilDate)
    (h : ordersInDay db date = []) : topDish db date = none := by
  simp only [topDish, h]
  simp [tally, jsEntries, List.mergeSort_nil]

/-- Witness for C8: the single stored order lies outside the queried day. -/
theorem topDish_empty_window_witness :
    ordersInDay dbOneOrder ⟨2024, 1, 15⟩ = [] ∧
    topDish dbOneOrder ⟨2024, 1, 15⟩ = none :=
  ⟨by decide, topDish_empty_window dbOneOrder ⟨2024, 1, 15⟩ (by decide)⟩

end PKP
